import Mathlib

/-!
Verification of the recurrence/duration activation engine of `obsidian-tasks`
(`main.go`).

Times are modelled as integers: nanoseconds since the Go zero time
(January 1 of year 1, 00:00:00 UTC), which is how `time.Time` behaves for the
UTC values this program manipulates.  `time.Duration` values are integers of
nanoseconds; arithmetic that Go performs on `time.Duration` (a 64-bit signed
integer) is wrapped explicitly (`wrap64`) where the source can overflow.
External collaborators — the `rrule` library (`StrToRRule` / `Between`) and
the standard library `time.Parse` — are modelled as parameters of the
functions that consume them.
-/

namespace ObsidianTasks

/-- Result of a Go call: a returned value, a returned `error`, or a runtime
panic (the Go program aborting, e.g. on an out-of-range slice index). -/
inductive GoResult (α : Type) where
  | ok : α → GoResult α
  | err : String → GoResult α
  | crash : GoResult α
deriving DecidableEq, Repr

/-- True exactly when the call returned a Go `error` (not a value, not a
panic). -/
def GoResult.isErr {α : Type} : GoResult α → Bool
  | .err _ => true
  | _ => false

/-- Nanoseconds in one second (`time.Second`). -/
def secondNs : Int := 1000000000

/-- Nanoseconds in one hour (`time.Hour`). -/
def hourNs : Int := 3600000000000

/-- Nanoseconds in one day (`24 * time.Hour`). -/
def dayNs : Int := 86400000000000

/-- Go `t.Truncate(24 * time.Hour)`: round `t` down to a multiple of a day
counted from the zero time (midnight truncation in UTC). -/
def truncDay (t : Int) : Int := t - t % dayNs

/-- Wrap an integer into the signed 64-bit range, the way Go `time.Duration`
(an `int64`) arithmetic overflows. -/
def wrap64 (x : Int) : Int :=
  (x + 9223372036854775808) % 18446744073709551616 - 9223372036854775808

/-- 64-bit wrapping addition (Go `int64` `+`). -/
def addw (a b : Int) : Int := wrap64 (a + b)

/-- 64-bit wrapping multiplication (Go `int64` `*`). -/
def mulw (a b : Int) : Int := wrap64 (a * b)

/-- Byte-range digit test used by `ParseDuration`:
`c >= '0' && c <= '9'`. -/
def isDig (c : Char) : Bool := decide ('0' ≤ c) && decide (c ≤ '9')

/-- Numeric value of a digit string (the integer `time.ParseDuration` reads
from `value`). -/
def digitsToNat (ds : List Char) : Nat :=
  ds.foldl (fun a c => a * 10 + (c.toNat - 48)) 0

/-- Split the body of the duration at the first `T`
(`strings.Index(remaining, "T")`): the part before `T` and the part after it
(empty when there is no `T`). -/
def splitAtT : List Char → List Char × List Char
  | [] => ([], [])
  | c :: cs =>
    if c = 'T' then ([], cs)
    else ((c :: (splitAtT cs).1), (splitAtT cs).2)

/-- Largest `N` for which Go `time.ParseDuration (toString N ++ "h")`
succeeds: `N * 3600e9` must fit in an `int64`. -/
def maxHourValue : Nat := 2562047

/-- Largest minute count Go `time.ParseDuration` accepts (`N * 60e9` fits in
an `int64`). -/
def maxMinuteValue : Nat := 153722867

/-- Largest second count Go `time.ParseDuration` accepts (`N * 1e9` fits in
an `int64`). -/
def maxSecondValue : Nat := 9223372036

/-- One `<integer><unit>` pair of the date part (before `T`).  Mirrors the
body of the first loop of `ParseDuration`: the overflow check of
`time.ParseDuration(value + "h")` happens before the unit switch; on success
`int(num.Hours())` equals the parsed integer exactly.  Multiplications and the
running `duration +=` wrap like Go `int64` arithmetic. -/
def parseDatePair (u : Char) (value : Nat) (acc : Int) : GoResult Int :=
  if maxHourValue < value then .err "time: invalid duration"
  else
    let hours : Int := (value : Int)
    match u with
    | 'D' => .ok (addw acc (mulw (mulw hours 24) hourNs))
    | 'W' => .ok (addw acc (mulw (mulw (mulw hours 7) 24) hourNs))
    | 'M' => .ok (addw acc (mulw (mulw (mulw hours 30) 24) hourNs))
    | 'Y' => .ok (addw acc (mulw (mulw (mulw hours 365) 24) hourNs))
    | _ => .err ("unknown date unit: " ++ String.mk [u])

/-- One `<integer><unit>` pair of the time part (after `T`).  Mirrors the
second loop of `ParseDuration`: for `H`, `M`, `S` the error of
`time.ParseDuration` is silently discarded (the component is skipped when its
value overflows), while an unrecognized unit returns an error. -/
def parseTimePair (u : Char) (value : Nat) (acc : Int) : GoResult Int :=
  match u with
  | 'H' => .ok (if value ≤ maxHourValue then addw acc ((value : Int) * hourNs) else acc)
  | 'M' => .ok (if value ≤ maxMinuteValue then addw acc ((value : Int) * 60000000000) else acc)
  | 'S' => .ok (if value ≤ maxSecondValue then addw acc ((value : Int) * secondNs) else acc)
  | _ => .err ("unknown time unit: " ++ String.mk [u])

/-- The component loop of `ParseDuration`, one character at a time:
`pending` is the digit run scanned so far in the current iteration.  An
iteration that starts on a non-digit with no pending digits is the `break`
of the Go loop; pending digits at the end of the string make
`remaining[i : i+1]` go out of range, a Go panic; otherwise the
`<integer><unit>` pair is handed to `pair` (the body of the unit switch)
and an error from it returns immediately. -/
def componentLoop (pair : Char → Nat → Int → GoResult Int) :
    List Char → List Char → Int → GoResult Int
  | [], [], acc => .ok acc
  | [], _ :: _, _ => .crash
  | c :: cs, pending, acc =>
    if isDig c then componentLoop pair cs (pending ++ [c]) acc
    else if pending = [] then .ok acc
    else
      match pair c (digitsToNat pending) acc with
      | .ok acc2 => componentLoop pair cs [] acc2
      | .err e => .err e
      | .crash => .crash

/-- First loop of `ParseDuration` (date components, before `T`). -/
def parseDateComponents (cs : List Char) (acc : Int) : GoResult Int :=
  componentLoop parseDatePair cs [] acc

/-- Second loop of `ParseDuration` (time components, after `T`). -/
def parseTimeComponents (cs : List Char) (acc : Int) : GoResult Int :=
  componentLoop parseTimePair cs [] acc

/-- `ParseDuration` of `main.go`: the empty string defaults to one day;
anything else must start with `P`; the body is split at the first `T` and the
two component loops run in sequence on the resulting halves. -/
def ParseDuration (s : String) : GoResult Int :=
  match s.toList with
  | [] => .ok (24 * hourNs)
  | 'P' :: rest =>
    let parts := splitAtT rest
    match parseDateComponents parts.1 0 with
    | .ok d => parseTimeComponents parts.2 d
    | .err e => .err e
    | .crash => .crash
  | _ => .err "duration must start with P"

/-- Days from 1970-01-01 to the proleptic-Gregorian date `y-m-d` (the civil
calendar Go's `time` package computes with).  Linear in `d`, so an
out-of-range day such as February 29 of a common year normalizes forward
exactly as Go's `time.Date` does. -/
def daysFromCivil (y m d : Int) : Int :=
  let y2 := if m ≤ 2 then y - 1 else y
  let era := y2.fdiv 400
  let yoe := y2 - era * 400
  let mp := (m + 9) % 12
  let doy := (153 * mp + 2).fdiv 5 + d - 1
  let doe := yoe * 365 + yoe.fdiv 4 - yoe.fdiv 100 + doy
  era * 146097 + doe - 719468

/-- Inverse of `daysFromCivil`: the civil date of a day count from
1970-01-01. -/
def civilFromDays (z0 : Int) : Int × Int × Int :=
  let z := z0 + 719468
  let era := z.fdiv 146097
  let doe := z - era * 146097
  let yoe := (doe - doe.fdiv 1460 + doe.fdiv 36524 - doe.fdiv 146096).fdiv 365
  let y := yoe + era * 400
  let doy := doe - (365 * yoe + yoe.fdiv 4 - yoe.fdiv 100)
  let mp := (5 * doy + 2).fdiv 153
  let d := doy - (153 * mp + 2).fdiv 5 + 1
  let m := mp + (if mp < 10 then 3 else -9)
  (if m ≤ 2 then y + 1 else y, m, d)

/-- Days from the Go zero time (0001-01-01) to 1970-01-01. -/
def unixEpochDays : Int := 719162

/-- The instant (nanoseconds since the Go zero time) of midnight UTC of the
civil date `y-m-d`. -/
def mkDate (y m d : Int) : Int := (daysFromCivil y m d + unixEpochDays) * dayNs

/-- Go `t.AddDate(years, months, days)` for a UTC time `t`: split `t` into
its civil date and its clock time, shift the civil date (normalizing the
month into `[1, 12]` first, then letting `daysFromCivil` absorb any
day-of-month overflow, as `time.Date` does), and keep the clock time. -/
def addDateGo (t : Int) (years months days : Int) : Int :=
  let dayIdx := t / dayNs
  let rem := t - dayIdx * dayNs
  let c := civilFromDays (dayIdx - unixEpochDays)
  let m2 := c.2.1 + months
  let ny := c.1 + years + (m2 - 1).fdiv 12
  let nm := (m2 - 1) % 12 + 1
  ((daysFromCivil ny nm (c.2.2 + days) + unixEpochDays) * dayNs + rem)

/-- Numeric value of an ASCII digit character. -/
def dv (c : Char) : Int := (c.toNat : Int) - 48

/-- Gregorian leap-year test. -/
def isLeapYear (y : Int) : Bool :=
  decide (y % 4 = 0) && (!decide (y % 100 = 0) || decide (y % 400 = 0))

/-- Number of days of month `m` of year `y`. -/
def daysInMonth (y m : Int) : Int :=
  if m = 2 then (if isLeapYear y then 29 else 28)
  else if m = 4 ∨ m = 6 ∨ m = 9 ∨ m = 11 then 30
  else 31

/-- Date built from eight digit characters `YYYYMMDD`, validated the way
`time.Parse` validates month and day ranges. -/
def mkDateOpt (a b c d e f g h : Char) : Option Int :=
  if isDig a && isDig b && isDig c && isDig d &&
     isDig e && isDig f && isDig g && isDig h then
    let y := 1000 * dv a + 100 * dv b + 10 * dv c + dv d
    let m := 10 * dv e + dv f
    let day := 10 * dv g + dv h
    if 1 ≤ m ∧ m ≤ 12 ∧ 1 ≤ day ∧ day ≤ daysInMonth y m then some (mkDate y m day)
    else none
  else none

/-- Date-time built from `YYYYMMDD` digits plus `hhmmss` digits, validated
the way `time.Parse` validates clock fields. -/
def mkDateTimeOpt (a b c d e f g h i j k l m n : Char) : Option Int :=
  match mkDateOpt a b c d e f g h with
  | none => none
  | some date =>
    if isDig i && isDig j && isDig k && isDig l && isDig m && isDig n then
      let hh := 10 * dv i + dv j
      let mi := 10 * dv k + dv l
      let ss := 10 * dv m + dv n
      if hh ≤ 23 ∧ mi ≤ 59 ∧ ss ≤ 59 then
        some (date + (hh * 3600 + mi * 60 + ss) * secondNs)
      else none
    else none

/-- Model of the standard-library collaborator `time.Parse`, restricted to
the four layout strings `ParseStartDate` uses, for zero-padded UTC inputs.
It is one admissible instantiation of the abstract parse parameter and is
used to evaluate the pipeline on concrete inputs. -/
def modelTimeParse (layout s : String) : Option Int :=
  if layout = "2006-01-02" then
    match s.toList with
    | [a, b, c, d, '-', e, f, '-', g, h] => mkDateOpt a b c d e f g h
    | _ => none
  else if layout = "2006-01-02T15:04:05Z" then
    match s.toList with
    | [a, b, c, d, '-', e, f, '-', g, h, 'T', i, j, ':', k, l, ':', m, n, 'Z'] =>
      mkDateTimeOpt a b c d e f g h i j k l m n
    | _ => none
  else if layout = "2006-01-02T15:04:05" then
    match s.toList with
    | [a, b, c, d, '-', e, f, '-', g, h, 'T', i, j, ':', k, l, ':', m, n] =>
      mkDateTimeOpt a b c d e f g h i j k l m n
    | _ => none
  else if layout = "20060102T000000Z" then
    match s.toList with
    | [a, b, c, d, e, f, g, h, 'T', '0', '0', '0', '0', '0', '0', 'Z'] =>
      mkDateOpt a b c d e f g h
    | _ => none
  else none

/-- Raw front matter of a scanned file: three optional strings plus tags
(`FrontMatter` in `main.go`). -/
structure FrontMatter where
  rrule : String
  duration : String
  dtstart : String
  tags : List String
deriving DecidableEq, Repr

/-- Resolved definition (`FrontMatterWithDefaults` in `main.go`): the
duration is a span of nanoseconds and the start is an instant. -/
structure FrontMatterWithDefaults where
  rrule : String
  duration : Int
  dtstart : Int
  tags : List String
deriving DecidableEq, Repr

/-- Abstract interface of Go's `time.Parse`: a layout string and an input
string give an instant or a parse failure. -/
def TryParse : Type := String → String → Option Int

/-- Abstract interface of the `rrule` library: `eval rule dtstart` is the
result of `rrule.StrToRRule` on the assembled `DTSTART`/`RRULE` text (an
error for malformed rule text), and a successful parse is used only through
`r.Between(lo, hi, true)`, the ascending occurrence list of the closed range
`[lo, hi]`. -/
structure RecurrenceSource where
  eval : String → Int → Except String (Int → Int → List Int)

/-- The list of layout strings `ParseStartDate` tries, in source order. -/
def goStartDateFormats : List String :=
  ["2006-01-02", "2006-01-02T15:04:05Z", "2006-01-02T15:04:05", "20060102T000000Z"]

/-- The format loop of `ParseStartDate`: the first layout that parses wins
and its value is truncated to midnight. -/
def tryFormats (tp : TryParse) : List String → String → Option Int
  | [], _ => none
  | f :: fs, s =>
    match tp f s with
    | some t => some (truncDay t)
    | none => tryFormats tp fs s

/-- `ParseStartDate` of `main.go`: empty input or total parse failure yield
the fallback unchanged; otherwise the first matching format wins. -/
def ParseStartDate (tp : TryParse) (dtStartStr : String) (fallbackDate : Int) : Int :=
  if dtStartStr = "" then fallbackDate
  else
    match tryFormats tp goStartDateFormats dtStartStr with
    | some t => t
    | none => fallbackDate

/-- `parseStartDate` of `main.go`, the wrapper whose fallback is the
reference time minus one calendar year, truncated to midnight (the implicit
`time.Now()` is threaded through as `now`). -/
def parseStartDateNow (tp : TryParse) (dtStartStr : String) (now : Int) : Int :=
  ParseStartDate tp dtStartStr (truncDay (addDateGo now (-1) 0 0))

/-- `ApplyDefaults` of `main.go`: parse the duration (fatal on error),
resolve the start date with the one-year-back fallback. -/
def ApplyDefaults (tp : TryParse) (fm : FrontMatter) (currentTime : Int) :
    GoResult FrontMatterWithDefaults :=
  match ParseDuration fm.duration with
  | .crash => .crash
  | .err e => .err ("duration parsing error: " ++ e)
  | .ok duration =>
    let fallbackStartDate := truncDay (addDateGo currentTime (-1) 0 0)
    let startDate := ParseStartDate tp fm.dtstart fallbackStartDate
    .ok ⟨fm.rrule, duration, startDate, fm.tags⟩

/-- `IsOneTimeTaskActive` of `main.go`: the structured one-time check on a
resolved definition. -/
def IsOneTimeTaskActive (fm : FrontMatterWithDefaults) (currentTime : Int) : Bool :=
  if fm.dtstart = 0 then false
  else
    let today := truncDay currentTime
    decide (fm.dtstart ≤ today ∧ today < fm.dtstart + fm.duration)

/-- `isOneTimeTaskActive` of `main.go`, the legacy string-based one-time
check (its internal `time.Now()` is the `now` parameter); a duration parse
error yields `false`. -/
def legacyIsOneTimeTaskActive (tp : TryParse) (fm : FrontMatter) (now : Int) :
    GoResult Bool :=
  if fm.dtstart = "" then .ok false
  else
    let today := truncDay now
    let startDate := parseStartDateNow tp fm.dtstart now
    match ParseDuration fm.duration with
    | .crash => .crash
    | .err _ => .ok false
    | .ok duration =>
      .ok (decide (startDate ≤ today ∧ today < startDate + duration))

/-- `IsTaskActive` of `main.go`: for a non-empty rule, query the recurrence
source between the resolved start and `today + duration` and scan the
occurrence windows; the `DTSTART` handed to the library is rendered at
midnight by the `20060102T000000Z` format. -/
def IsTaskActive (src : RecurrenceSource) (fm : FrontMatterWithDefaults)
    (currentTime : Int) : GoResult Bool :=
  let today := truncDay currentTime
  if fm.rrule ≠ "" then
    match src.eval fm.rrule (truncDay fm.dtstart) with
    | .error e => .err ("RRULE parsing error: " ++ e)
    | .ok between =>
      let occurrences := between fm.dtstart (today + fm.duration)
      .ok (occurrences.any fun occurrence =>
        decide (truncDay occurrence ≤ today ∧ today < truncDay occurrence + fm.duration))
  else if fm.dtstart ≠ 0 then
    .ok (IsOneTimeTaskActive fm currentTime)
  else
    .ok false

/-- `getNextOccurrence` of `main.go`: the first occurrence in
`[today + 24h, today.AddDate(1,0,0)]`, truncated to midnight; `nil` when the
rule is empty, malformed, or the horizon is empty. -/
def getNextOccurrence (src : RecurrenceSource) (tp : TryParse) (fm : FrontMatter)
    (now : Int) : Option Int :=
  if fm.rrule = "" then none
  else
    let today := truncDay now
    let startDate := parseStartDateNow tp fm.dtstart now
    match src.eval fm.rrule (truncDay startDate) with
    | .error _ => none
    | .ok between =>
      match between (today + dayNs) (addDateGo today 1 0 0) with
      | [] => none
      | next :: _ => some (truncDay next)

/-- The occurrence scan of `getCurrentDueDate`: the first occurrence whose
window contains `today` yields `occurrenceEnd - 24h`. -/
def findDueDate (duration today : Int) : List Int → Option Int
  | [] => none
  | occ :: rest =>
    if truncDay occ ≤ today ∧ today < truncDay occ + duration then
      some (truncDay occ + duration - dayNs)
    else findDueDate duration today rest

/-- `getCurrentDueDate` of `main.go`: due date of the first occurrence
window containing `today`; `nil` on empty rule, duration parse error, rule
parse error, or no matching window. -/
def getCurrentDueDate (src : RecurrenceSource) (tp : TryParse) (fm : FrontMatter)
    (now : Int) : GoResult (Option Int) :=
  if fm.rrule = "" then .ok none
  else
    let today := truncDay now
    let startDate := parseStartDateNow tp fm.dtstart now
    match ParseDuration fm.duration with
    | .crash => .crash
    | .err _ => .ok none
    | .ok duration =>
      match src.eval fm.rrule (truncDay startDate) with
      | .error _ => .ok none
      | .ok between =>
        .ok (findDueDate duration today (between startDate (today + duration)))

/-- `getOneTimeDueDate` of `main.go`: `start + duration - 24h`, `nil` when
the start string is empty or the duration is malformed. -/
def getOneTimeDueDate (tp : TryParse) (fm : FrontMatter) (now : Int) :
    GoResult (Option Int) :=
  if fm.dtstart = "" then .ok none
  else
    let startDate := parseStartDateNow tp fm.dtstart now
    match ParseDuration fm.duration with
    | .crash => .crash
    | .err _ => .ok none
    | .ok duration => .ok (some (startDate + duration - dayNs))

/-- The fields of the `Task` record that `processFile` computes from the
front matter (the file name and path are I/O concerns and carry no logic). -/
structure GoTask where
  rrule : String
  duration : String
  nextStart : Option Int
  dueDate : Option Int
deriving DecidableEq, Repr

/-- The task-construction logic of `processFile` (`main.go`, after the
front matter has been read): recurring tasks get `getNextOccurrence` /
`getCurrentDueDate`; one-time tasks get the sentinel rule `"ONCE"`, their
resolved start as `NextStart` unconditionally, and `getOneTimeDueDate`. -/
def processFrontMatter (src : RecurrenceSource) (tp : TryParse) (fm : FrontMatter)
    (now : Int) : GoResult GoTask :=
  if fm.rrule ≠ "" then
    match getCurrentDueDate src tp fm now with
    | .crash => .crash
    | .err e => .err e
    | .ok dueDate =>
      .ok ⟨fm.rrule, fm.duration, getNextOccurrence src tp fm now, dueDate⟩
  else if fm.dtstart ≠ "" then
    match getOneTimeDueDate tp fm now with
    | .crash => .crash
    | .err e => .err e
    | .ok dueDate =>
      .ok ⟨"ONCE", fm.duration, some (parseStartDateNow tp fm.dtstart now), dueDate⟩
  else
    .ok ⟨"", "", none, none⟩

/-- How a definition is classified in `main`: evaluation errors go to the
error list, otherwise the verdict of `IsTaskActive` decides between the
active and the inactive list; a panic aborts the program. -/
inductive TaskClass where
  | active : TaskClass
  | inactive : TaskClass
  | errored : String → TaskClass
  | crashed : TaskClass
deriving DecidableEq, Repr

/-- The per-file classification of `main` + `isTaskActive` (`main.go`):
`ApplyDefaults`, then `IsTaskActive`, with errors collected separately from
inactive tasks. -/
def classifyTask (src : RecurrenceSource) (tp : TryParse) (fm : FrontMatter)
    (now : Int) : TaskClass :=
  match ApplyDefaults tp fm now with
  | .crash => .crashed
  | .err e => .errored e
  | .ok fmd =>
    match IsTaskActive src fmd now with
    | .crash => .crashed
    | .err e => .errored e
    | .ok true => .active
    | .ok false => .inactive

/-! Concrete fixtures used to evaluate the abstract collaborators on
specific inputs. -/

/-- A recurrence source that rejects every rule string. -/
def srcErrFixture : RecurrenceSource := ⟨fun _ _ => .error "bad rule"⟩

/-- A sample occurrence date. -/
def occFixture : Int := mkDate 2025 1 1

/-- A recurrence behaviour with the single occurrence `occFixture`,
honouring the inclusive-range contract of `Between`. -/
def betweenFixture : Int → Int → List Int := fun lo hi =>
  if lo ≤ occFixture ∧ occFixture ≤ hi then [occFixture] else []

/-- A recurrence source accepting every rule with behaviour
`betweenFixture`. -/
def srcFixture : RecurrenceSource := ⟨fun _ _ => .ok betweenFixture⟩

/-- A resolved recurring definition starting at `occFixture` with a one-day
duration. -/
def fmdFixture : FrontMatterWithDefaults := ⟨"FREQ=DAILY", 86400000000000, mkDate 2025 1 1, []⟩

/-- A later sample occurrence date, inside the one-year lookahead from
September 26, 2025. -/
def occNextFixture : Int := mkDate 2025 10 18

/-- A recurrence behaviour with the single occurrence `occNextFixture`. -/
def betweenNextFixture : Int → Int → List Int := fun lo hi =>
  if lo ≤ occNextFixture ∧ occNextFixture ≤ hi then [occNextFixture] else []

/-- A recurrence source with behaviour `betweenNextFixture`. -/
def srcNextFixture : RecurrenceSource := ⟨fun _ _ => .ok betweenNextFixture⟩

/-- A raw recurring front matter whose start parses to `occFixture`. -/
def fmRecFixture : FrontMatter := ⟨"FREQ=DAILY", "P1D", "2025-01-01", []⟩

/-! Theorems.  General lemmas about the embedded definitions come first,
then one theorem (with witness or counterexample) per specification claim. -/

theorem dayNs_pos : 0 < dayNs := by norm_num [dayNs]

theorem truncDay_eq (t : Int) : truncDay t = dayNs * (t / dayNs) := by
  unfold truncDay dayNs
  omega

theorem truncDay_le (t : Int) : truncDay t ≤ t := by
  unfold truncDay dayNs
  omega

theorem lt_truncDay_add_day (t : Int) : t < truncDay t + dayNs := by
  unfold truncDay dayNs
  omega

theorem truncDay_mono {a b : Int} (h : a ≤ b) : truncDay a ≤ truncDay b := by
  unfold truncDay dayNs
  omega

theorem truncDay_idem (t : Int) : truncDay (truncDay t) = truncDay t := by
  unfold truncDay dayNs
  omega

theorem truncDay_add_day (t : Int) : truncDay (t + dayNs) = truncDay t + dayNs := by
  unfold truncDay dayNs
  omega

theorem splitAtT_no_T {ds : List Char} {c : Char} (r : List Char)
    (hds : ∀ d ∈ ds, d ≠ 'T') (hc : c ≠ 'T') :
    splitAtT (ds ++ c :: r) = (ds ++ c :: (splitAtT r).1, (splitAtT r).2) := by
  induction ds with
  | nil => simp [splitAtT, hc]
  | cons d ds ih =>
    have hd : d ≠ 'T' := hds d (by simp)
    have hds' : ∀ x ∈ ds, x ≠ 'T' := fun x hx => hds x (by simp [hx])
    simp [splitAtT, hd, ih hds']

theorem parseDatePair_isErr (u : Char) (v : Nat) (acc : Int)
    (hu : u ∉ (['D', 'W', 'M', 'Y'] : List Char)) :
    (parseDatePair u v acc).isErr = true := by
  unfold parseDatePair
  by_cases hv : maxHourValue < v
  · simp [hv, GoResult.isErr]
  · rw [if_neg hv]
    split <;> simp_all [GoResult.isErr]

theorem parseTimePair_isErr (u : Char) (v : Nat) (acc : Int)
    (hu : u ∉ (['H', 'M', 'S'] : List Char)) :
    (parseTimePair u v acc).isErr = true := by
  unfold parseTimePair
  split <;> simp_all [GoResult.isErr]

theorem componentLoop_reaches_unit (pair : Char → Nat → Int → GoResult Int)
    (ds : List Char) (c : Char) (r : List Char) :
    ∀ (pending : List Char) (acc : Int), (∀ d ∈ ds, isDig d = true) →
    isDig c = false → pending ++ ds ≠ [] →
    componentLoop pair (ds ++ c :: r) pending acc =
      match pair c (digitsToNat (pending ++ ds)) acc with
      | .ok acc2 => componentLoop pair r [] acc2
      | .err e => .err e
      | .crash => .crash := by
  induction ds with
  | nil =>
    intro pending acc _ hc hne
    simp only [List.append_nil] at hne ⊢
    simp [componentLoop, hc, hne]
  | cons d ds ih =>
    intro pending acc hdig hc _
    have hd : isDig d = true := hdig d (by simp)
    have hdig' : ∀ x ∈ ds, isDig x = true := fun x hx => hdig x (by simp [hx])
    have hne' : (pending ++ [d]) ++ ds ≠ [] := by simp
    have hstep : componentLoop pair ((d :: ds) ++ c :: r) pending acc =
        componentLoop pair (ds ++ c :: r) (pending ++ [d]) acc := by
      simp [componentLoop, hd]
    rw [hstep, ih (pending ++ [d]) acc hdig' hc hne']
    simp

theorem parseDateComponents_err (ds : List Char) (c : Char) (r : List Char) (acc : Int)
    (hds : ds ≠ []) (hdig : ∀ d ∈ ds, isDig d = true) (hc : isDig c = false)
    (hu : c ∉ (['D', 'W', 'M', 'Y'] : List Char)) :
    (parseDateComponents (ds ++ c :: r) acc).isErr = true := by
  unfold parseDateComponents
  rw [componentLoop_reaches_unit parseDatePair ds c r [] acc hdig hc (by simpa using hds)]
  have hpp := parseDatePair_isErr c (digitsToNat ([] ++ ds)) acc hu
  cases hp : parseDatePair c (digitsToNat ([] ++ ds)) acc with
  | ok a => rw [hp] at hpp; simp [GoResult.isErr] at hpp
  | err e => simp [hp, GoResult.isErr]
  | crash => rw [hp] at hpp; simp [GoResult.isErr] at hpp

theorem parseTimeComponents_err (ds : List Char) (c : Char) (r : List Char) (acc : Int)
    (hds : ds ≠ []) (hdig : ∀ d ∈ ds, isDig d = true) (hc : isDig c = false)
    (hu : c ∉ (['H', 'M', 'S'] : List Char)) :
    (parseTimeComponents (ds ++ c :: r) acc).isErr = true := by
  unfold parseTimeComponents
  rw [componentLoop_reaches_unit parseTimePair ds c r [] acc hdig hc (by simpa using hds)]
  have hpp := parseTimePair_isErr c (digitsToNat ([] ++ ds)) acc hu
  cases hp : parseTimePair c (digitsToNat ([] ++ ds)) acc with
  | ok a => rw [hp] at hpp; simp [GoResult.isErr] at hpp
  | err e => simp [hp, GoResult.isErr]
  | crash => rw [hp] at hpp; simp [GoResult.isErr] at hpp

/-- C1: for every resolved definition with a non-empty rule that the
recurrence source accepts, `IsTaskActive` reports Active exactly when some
occurrence date `o` produced between the definition's start and
`today + duration`, truncated to midnight, satisfies
`o ≤ today < o + duration`; in particular `today = o` gives Active, and the
window is half-open: an occurrence with `today = o + duration` does not
contain `today`. -/
theorem IsTaskActive_active_iff_window (src : RecurrenceSource)
    (between : Int → Int → List Int) (fm : FrontMatterWithDefaults) (now : Int)
    (hrule : fm.rrule ≠ "") (hdur : 0 < fm.duration)
    (hsrc : src.eval fm.rrule (truncDay fm.dtstart) = .ok between) :
    (IsTaskActive src fm now = .ok true ↔
      ∃ o ∈ between fm.dtstart (truncDay now + fm.duration),
        truncDay o ≤ truncDay now ∧ truncDay now < truncDay o + fm.duration)
    ∧ (∀ o ∈ between fm.dtstart (truncDay now + fm.duration),
        truncDay now = truncDay o → IsTaskActive src fm now = .ok true)
    ∧ (∀ o : Int, truncDay now = truncDay o + fm.duration →
        ¬(truncDay o ≤ truncDay now ∧ truncDay now < truncDay o + fm.duration)) := by
  have hmain : IsTaskActive src fm now =
      .ok ((between fm.dtstart (truncDay now + fm.duration)).any fun occurrence =>
        decide (truncDay occurrence ≤ truncDay now ∧
          truncDay now < truncDay occurrence + fm.duration)) := by
    unfold IsTaskActive
    rw [if_pos hrule, hsrc]
  have hiff : IsTaskActive src fm now = .ok true ↔
      ∃ o ∈ between fm.dtstart (truncDay now + fm.duration),
        truncDay o ≤ truncDay now ∧ truncDay now < truncDay o + fm.duration := by
    rw [hmain]
    simp [List.any_eq_true]
  refine ⟨hiff, ?_, ?_⟩
  · intro o ho heq
    exact hiff.mpr ⟨o, ho, by omega, by omega⟩
  · intro o heq h
    omega

/-- Witness for C1 at a concrete definition and day: the sole occurrence
opens on the evaluation day, so the task is Active. -/
theorem IsTaskActive_active_iff_window_witness :
    fmdFixture.rrule ≠ "" ∧ 0 < fmdFixture.duration ∧
    IsTaskActive srcFixture fmdFixture (mkDate 2025 1 1) = .ok true :=
  ⟨by decide, by decide,
   ((IsTaskActive_active_iff_window srcFixture betweenFixture fmdFixture (mkDate 2025 1 1)
      (by decide) (by decide) rfl).1).mpr ⟨occFixture, by decide, by decide, by decide⟩⟩

/-- C5 is a code bug: a returned duration-parse error or rule-parse error is
classified as errored (never inactive), but the malformed duration `"P1"`
(digits with the unit letter missing) makes `ParseDuration` index past the
end of the string, so the Go program panics instead of producing an Error
result. -/
theorem malformed_duration_or_rule_never_inactive (src : RecurrenceSource)
    (tp : TryParse) (fm : FrontMatter) (now : Int) :
    (∀ e, ParseDuration fm.duration = .err e →
      classifyTask src tp fm now = .errored ("duration parsing error: " ++ e))
    ∧ (∀ e d, fm.rrule ≠ "" → ParseDuration fm.duration = .ok d →
        src.eval fm.rrule (truncDay (parseStartDateNow tp fm.dtstart now)) = .error e →
        classifyTask src tp fm now = .errored ("RRULE parsing error: " ++ e))
    ∧ (ParseDuration "P1" = .crash ∧
        classifyTask src tp ⟨fm.rrule, "P1", fm.dtstart, fm.tags⟩ now = .crashed) := by
  refine ⟨?_, ?_, ?_, ?_⟩
  · intro e he
    unfold classifyTask ApplyDefaults
    rw [he]
  · intro e d hrule hd hsrc
    simp only [parseStartDateNow] at hsrc
    unfold classifyTask ApplyDefaults
    rw [hd]
    unfold IsTaskActive
    simp only [if_pos hrule]
    rw [hsrc]
  · decide
  · unfold classifyTask ApplyDefaults
    rw [show ParseDuration "P1" = .crash from by decide]

/-- Witness for C5: a rejected duration string and a rejected rule string
are both classified as errored, never as inactive. -/
theorem malformed_duration_or_rule_never_inactive_witness :
    classifyTask srcErrFixture modelTimeParse ⟨"", "invalid", "", []⟩ (mkDate 2025 9 26) =
      .errored ("duration parsing error: " ++ "duration must start with P")
    ∧ classifyTask srcErrFixture modelTimeParse ⟨"FREQ=MONTHLY", "P1D", "2024-01-01", []⟩
        (mkDate 2025 9 26) = .errored ("RRULE parsing error: " ++ "bad rule") :=
  ⟨(malformed_duration_or_rule_never_inactive srcErrFixture modelTimeParse
      ⟨"", "invalid", "", []⟩ (mkDate 2025 9 26)).1 "duration must start with P" (by decide),
   (malformed_duration_or_rule_never_inactive srcErrFixture modelTimeParse
      ⟨"FREQ=MONTHLY", "P1D", "2024-01-01", []⟩ (mkDate 2025 9 26)).2.1 "bad rule"
      86400000000000 (by decide) (by decide) rfl⟩

/-- C6 fails as stated: `"PX"` begins with `P` and contains the
unrecognized unit letter `X` before any `T`, yet `ParseDuration` accepts it
and returns a zero span, because a letter that does not follow a digit run
merely breaks the scanning loop. -/
theorem unknown_unit_accepted_cex : ParseDuration "PX" = .ok 0 := by decide

/-- C6 (amended): an unrecognized unit letter is rejected exactly when it
terminates a digit run that the scan reaches: for an ASCII non-digit `c`,
`P<digits><c>...` fails when `c` is outside `D`, `W`, `M`, `Y` (and is not
the `T` marker), and `PT<digits><c>...` fails when `c` is outside `H`, `M`,
`S`; an unrecognized letter not preceded by digits is accepted silently. -/
theorem unknown_unit_after_digits_fails (ds : List Char) (c : Char) (rest : List Char)
    (hds : ds ≠ []) (hdig : ∀ d ∈ ds, isDig d = true)
    (hc : isDig c = false) (hascii : c.toNat < 128) :
    (c ∉ (['D', 'W', 'M', 'Y', 'T'] : List Char) →
      (ParseDuration (String.mk ('P' :: (ds ++ c :: rest)))).isErr = true)
    ∧ (c ∉ (['H', 'M', 'S'] : List Char) →
      (ParseDuration (String.mk ('P' :: 'T' :: (ds ++ c :: rest)))).isErr = true) := by
  constructor
  · intro hcmem
    have hcT : c ≠ 'T' := fun h => hcmem (by simp [h])
    have hdsT : ∀ d ∈ ds, d ≠ 'T' := by
      intro d hd hdT
      have := hdig d hd
      rw [hdT] at this
      simp [isDig] at this
    have hcu : c ∉ (['D', 'W', 'M', 'Y'] : List Char) := by
      intro h
      apply hcmem
      simp only [List.mem_cons, List.mem_singleton] at h ⊢
      tauto
    have hunf : ParseDuration (String.mk ('P' :: (ds ++ c :: rest))) =
        (match parseDateComponents (splitAtT (ds ++ c :: rest)).1 0 with
         | .ok d => parseTimeComponents (splitAtT (ds ++ c :: rest)).2 d
         | .err e => .err e
         | .crash => .crash) := rfl
    rw [hunf, splitAtT_no_T rest hdsT hcT]
    have herr := parseDateComponents_err ds c (splitAtT rest).1 0 hds hdig hc hcu
    cases hp : parseDateComponents (ds ++ c :: (splitAtT rest).1) 0 with
    | ok a => rw [hp] at herr; simp [GoResult.isErr] at herr
    | err e => simp [hp, GoResult.isErr]
    | crash => rw [hp] at herr; simp [GoResult.isErr] at herr
  · intro hcmem
    have hunf : ParseDuration (String.mk ('P' :: 'T' :: (ds ++ c :: rest))) =
        (match parseDateComponents ([] : List Char) 0 with
         | .ok d => parseTimeComponents (ds ++ c :: rest) d
         | .err e => .err e
         | .crash => .crash) := rfl
    have h0 : parseDateComponents ([] : List Char) 0 = .ok 0 := rfl
    rw [hunf, h0]
    exact parseTimeComponents_err ds c rest 0 hds hdig hc hcmem

/-- Witness for the amended C6: `"P1X"` and `"PT1X"` are both rejected. -/
theorem unknown_unit_after_digits_fails_witness :
    (ParseDuration (String.mk ('P' :: (['1'] ++ 'X' :: [])))).isErr = true
    ∧ (ParseDuration (String.mk ('P' :: 'T' :: (['1'] ++ 'X' :: [])))).isErr = true :=
  ⟨(unknown_unit_after_digits_fails ['1'] 'X' []
      (by decide) (by decide) (by decide) (by decide)).1 (by decide),
   (unknown_unit_after_digits_fails ['1'] 'X' []
      (by decide) (by decide) (by decide) (by decide)).2 (by decide)⟩

/-- C7 is a code bug: the duration string `"P"` (no components at all) is
accepted by `ParseDuration` with a zero span, so a definition can resolve
successfully with `duration = 0`, violating the `duration > 0` invariant of
resolved definitions. -/
theorem duration_invariant_violated :
    ParseDuration "P" = .ok 0
    ∧ ApplyDefaults modelTimeParse ⟨"", "P", "", []⟩ (mkDate 2025 9 26) =
        .ok ⟨"", 0, mkDate 2024 9 26, []⟩ := by
  constructor
  · decide
  · decide

/-- C8: the duration-parser value table of the specification, in
nanoseconds: the empty string defaults to one day, `P1M` is the 30-day
approximation, `P1Y` the 365-day approximation, and `"invalid"` is
rejected. -/
theorem ParseDuration_table :
    ParseDuration "" = .ok 86400000000000
    ∧ ParseDuration "P1D" = .ok 86400000000000
    ∧ ParseDuration "P10D" = .ok 864000000000000
    ∧ ParseDuration "P1W" = .ok 604800000000000
    ∧ ParseDuration "PT2H" = .ok 7200000000000
    ∧ ParseDuration "PT30M" = .ok 1800000000000
    ∧ ParseDuration "P1DT2H" = .ok 93600000000000
    ∧ ParseDuration "P1M" = .ok 2592000000000000
    ∧ ParseDuration "P1Y" = .ok 31536000000000000
    ∧ (ParseDuration "invalid").isErr = true := by
  decide

theorem findDueDate_first (dur today : Int) :
    ∀ (l : List Int), l.Pairwise (· ≤ ·) →
    (∃ o ∈ l, truncDay o ≤ today ∧ today < truncDay o + dur) →
    ∃ o ∈ l, (truncDay o ≤ today ∧ today < truncDay o + dur) ∧
      findDueDate dur today l = some (truncDay o + dur - dayNs) ∧
      ∀ x ∈ l, (truncDay x ≤ today ∧ today < truncDay x + dur) → truncDay o ≤ truncDay x := by
  intro l
  induction l with
  | nil =>
    intro _ h
    simp at h
  | cons a t ih =>
    intro hp hex
    by_cases ha : truncDay a ≤ today ∧ today < truncDay a + dur
    · refine ⟨a, by simp, ha, by simp [findDueDate, ha], ?_⟩
      intro x hx hwx
      rcases List.mem_cons.mp hx with hxa | hxt
      · rw [hxa]
      · exact truncDay_mono ((List.pairwise_cons.mp hp).1 x hxt)
    · have hex' : ∃ o ∈ t, truncDay o ≤ today ∧ today < truncDay o + dur := by
        rcases hex with ⟨o, ho, hw⟩
        rcases List.mem_cons.mp ho with hoa | hot
        · exact absurd (hoa ▸ hw) ha
        · exact ⟨o, hot, hw⟩
      rcases ih (List.pairwise_cons.mp hp).2 hex' with ⟨o, ho, hw, heq, hmin⟩
      refine ⟨o, by simp [ho], hw, by simp [findDueDate, ha, heq], ?_⟩
      intro x hx hwx
      rcases List.mem_cons.mp hx with hxa | hxt
      · exact absurd (hxa ▸ hwx) ha
      · exact hmin x hxt hwx

/-- C2: when a recurring definition is Active (some occurrence window
contains `today`), `getCurrentDueDate` reports exactly
`windowStart + duration - 1 day` for the chronologically earliest occurrence
window containing `today` (the occurrence list is ascending, so the scan's
first match is the earliest). -/
theorem getCurrentDueDate_first_window (src : RecurrenceSource) (tp : TryParse)
    (between : Int → Int → List Int) (fm : FrontMatter) (now dur : Int)
    (hrule : fm.rrule ≠ "")
    (hdur : ParseDuration fm.duration = .ok dur)
    (hsrc : src.eval fm.rrule (truncDay (parseStartDateNow tp fm.dtstart now)) = .ok between)
    (hsorted : (between (parseStartDateNow tp fm.dtstart now)
      (truncDay now + dur)).Pairwise (· ≤ ·))
    (hex : ∃ o ∈ between (parseStartDateNow tp fm.dtstart now) (truncDay now + dur),
      truncDay o ≤ truncDay now ∧ truncDay now < truncDay o + dur) :
    ∃ o ∈ between (parseStartDateNow tp fm.dtstart now) (truncDay now + dur),
      (truncDay o ≤ truncDay now ∧ truncDay now < truncDay o + dur) ∧
      getCurrentDueDate src tp fm now = .ok (some (truncDay o + dur - dayNs)) ∧
      ∀ x ∈ between (parseStartDateNow tp fm.dtstart now) (truncDay now + dur),
        (truncDay x ≤ truncDay now ∧ truncDay now < truncDay x + dur) →
        truncDay o ≤ truncDay x := by
  have hmain : getCurrentDueDate src tp fm now =
      .ok (findDueDate dur (truncDay now)
        (between (parseStartDateNow tp fm.dtstart now) (truncDay now + dur))) := by
    unfold getCurrentDueDate
    rw [if_neg hrule]
    simp only [hdur, hsrc]
  rcases findDueDate_first dur (truncDay now) _ hsorted hex with ⟨o, ho, hw, heq, hmin⟩
  exact ⟨o, ho, hw, by rw [hmain, heq], hmin⟩

/-- Witness for C2: on January 1, 2025 the single occurrence of that day
matches, and the reported due date is that day (one-day duration). -/
theorem getCurrentDueDate_first_window_witness :
    ∃ o ∈ betweenFixture (parseStartDateNow modelTimeParse "2025-01-01" (mkDate 2025 1 1))
        (truncDay (mkDate 2025 1 1) + 86400000000000),
      (truncDay o ≤ truncDay (mkDate 2025 1 1) ∧
        truncDay (mkDate 2025 1 1) < truncDay o + 86400000000000) ∧
      getCurrentDueDate srcFixture modelTimeParse fmRecFixture (mkDate 2025 1 1) =
        .ok (some (truncDay o + 86400000000000 - dayNs)) ∧
      ∀ x ∈ betweenFixture (parseStartDateNow modelTimeParse "2025-01-01" (mkDate 2025 1 1))
          (truncDay (mkDate 2025 1 1) + 86400000000000),
        (truncDay x ≤ truncDay (mkDate 2025 1 1) ∧
          truncDay (mkDate 2025 1 1) < truncDay x + 86400000000000) →
        truncDay o ≤ truncDay x :=
  getCurrentDueDate_first_window srcFixture modelTimeParse betweenFixture fmRecFixture
    (mkDate 2025 1 1) 86400000000000 (by decide) (by decide) rfl
    (by
      rw [show betweenFixture (parseStartDateNow modelTimeParse fmRecFixture.dtstart (mkDate 2025 1 1))
        (truncDay (mkDate 2025 1 1) + 86400000000000) = [occFixture] from by decide]
      simp)
    ⟨occFixture, by decide, by decide, by decide⟩

/-- C3 fails in its next-start half: a fully elapsed one-time definition
(start in the past, window over) is Inactive, and the claim requires its
next start to be absent, but `processFile` unconditionally reports the
resolved start date. -/
theorem oneTime_nextStart_none_cex :
    IsOneTimeTaskActive ⟨"", 86400000000000, mkDate 2020 1 5, []⟩ (mkDate 2025 9 26) = false
    ∧ mkDate 2020 1 5 ≤ truncDay (mkDate 2025 9 26)
    ∧ (match processFrontMatter srcErrFixture modelTimeParse ⟨"", "P1D", "2020-01-05", []⟩
          (mkDate 2025 9 26) with
       | .ok task => task.nextStart
       | _ => none) = some (mkDate 2020 1 5) := by
  refine ⟨by decide, by decide, by decide⟩

/-- C3 (amended): a resolved one-time definition is Active exactly when
`start ≤ today < start + duration`; and for an inactive (or active)
one-time definition `processFile` reports `nextStart = start`
unconditionally — also when `start ≤ today`, where the claim said none. -/
theorem oneTime_active_iff_nextStart_always (src : RecurrenceSource) (tp : TryParse)
    (fmd : FrontMatterWithDefaults) (fm : FrontMatter) (now dur : Int)
    (h0 : fmd.dtstart ≠ 0) (hrule : fm.rrule = "") (hds : fm.dtstart ≠ "")
    (hdur : ParseDuration fm.duration = .ok dur) :
    (IsOneTimeTaskActive fmd now = true ↔
      fmd.dtstart ≤ truncDay now ∧ truncDay now < fmd.dtstart + fmd.duration)
    ∧ processFrontMatter src tp fm now =
        .ok ⟨"ONCE", fm.duration, some (parseStartDateNow tp fm.dtstart now),
          some (parseStartDateNow tp fm.dtstart now + dur - dayNs)⟩ := by
  constructor
  · unfold IsOneTimeTaskActive
    rw [if_neg h0]
    simp
  · unfold processFrontMatter getOneTimeDueDate
    rw [if_neg (by simp [hrule]), if_pos hds, if_neg hds]
    simp [hdur]

/-- Witness for the amended C3: a one-time definition starting October 18,
2025 evaluated on September 26, 2025. -/
theorem oneTime_active_iff_nextStart_always_witness :
    (IsOneTimeTaskActive ⟨"", 86400000000000, mkDate 2025 10 18, []⟩ (mkDate 2025 9 26) = true ↔
      mkDate 2025 10 18 ≤ truncDay (mkDate 2025 9 26) ∧
      truncDay (mkDate 2025 9 26) < mkDate 2025 10 18 + 86400000000000)
    ∧ processFrontMatter srcErrFixture modelTimeParse ⟨"", "P1D", "2025-10-18", []⟩
        (mkDate 2025 9 26) =
        .ok ⟨"ONCE", "P1D", some (parseStartDateNow modelTimeParse "2025-10-18" (mkDate 2025 9 26)),
          some (parseStartDateNow modelTimeParse "2025-10-18" (mkDate 2025 9 26) +
            86400000000000 - dayNs)⟩ :=
  oneTime_active_iff_nextStart_always srcErrFixture modelTimeParse
    ⟨"", 86400000000000, mkDate 2025 10 18, []⟩ ⟨"", "P1D", "2025-10-18", []⟩
    (mkDate 2025 9 26) 86400000000000 (by decide) rfl (by decide) (by decide)

/-- C4: when the rule parses, `getNextOccurrence` returns exactly the
earliest occurrence strictly after `today` within the one-year lookahead
`[today + 24h, today.AddDate(1,0,0)]`, or none when that horizon holds no
occurrence.  The hypotheses are the recurrence-source contract: the list is
ascending, lies inside the queried range, and consists of midnight-aligned
dates (occurrences inherit the midnight clock time of `DTSTART`). -/
theorem getNextOccurrence_earliest_in_horizon (src : RecurrenceSource) (tp : TryParse)
    (between : Int → Int → List Int) (fm : FrontMatter) (now : Int)
    (hrule : fm.rrule ≠ "")
    (hsrc : src.eval fm.rrule (truncDay (parseStartDateNow tp fm.dtstart now)) = .ok between)
    (hsorted : (between (truncDay now + dayNs)
      (addDateGo (truncDay now) 1 0 0)).Pairwise (· ≤ ·))
    (hrange : ∀ x ∈ between (truncDay now + dayNs) (addDateGo (truncDay now) 1 0 0),
      truncDay now + dayNs ≤ x ∧ x ≤ addDateGo (truncDay now) 1 0 0)
    (hmid : ∀ x ∈ between (truncDay now + dayNs) (addDateGo (truncDay now) 1 0 0),
      truncDay x = x) :
    (getNextOccurrence src tp fm now = none ↔
      between (truncDay now + dayNs) (addDateGo (truncDay now) 1 0 0) = [])
    ∧ ∀ d, getNextOccurrence src tp fm now = some d →
        d ∈ between (truncDay now + dayNs) (addDateGo (truncDay now) 1 0 0) ∧
        truncDay now < d ∧ d ≤ addDateGo (truncDay now) 1 0 0 ∧
        ∀ x ∈ between (truncDay now + dayNs) (addDateGo (truncDay now) 1 0 0), d ≤ x := by
  have hmain : getNextOccurrence src tp fm now =
      (match between (truncDay now + dayNs) (addDateGo (truncDay now) 1 0 0) with
       | [] => none
       | next :: _ => some (truncDay next)) := by
    unfold getNextOccurrence
    rw [if_neg hrule]
    simp only [hsrc]
  cases hl : between (truncDay now + dayNs) (addDateGo (truncDay now) 1 0 0) with
  | nil =>
    rw [hl] at hmain
    constructor
    · simp [hmain]
    · intro d hd
      rw [hmain] at hd
      simp at hd
  | cons a t =>
    rw [hl] at hmain
    have hma : a ∈ between (truncDay now + dayNs) (addDateGo (truncDay now) 1 0 0) := by
      rw [hl]; simp
    have hta : truncDay a = a := hmid a hma
    constructor
    · simp [hmain]
    · intro d hd
      rw [hmain] at hd
      have hd2 : some (truncDay a) = some d := hd
      have hda : a = d := by
        injection hd2 with h
        rw [hta] at h
        exact h
      subst hda
      have hr := hrange a hma
      have hday : 0 < dayNs := dayNs_pos
      refine ⟨by simp, by omega, hr.2, ?_⟩
      intro x hx
      rcases List.mem_cons.mp hx with hxa | hxt
      · rw [hxa]
      · exact (List.pairwise_cons.mp (hl ▸ hsorted)).1 x hxt

/-- Witness for C4: an inactive definition on September 26, 2025 whose next
occurrence is October 18, 2025 — inside the one-year horizon, strictly
after today, and minimal. -/
theorem getNextOccurrence_earliest_in_horizon_witness :
    (getNextOccurrence srcNextFixture modelTimeParse fmRecFixture (mkDate 2025 9 26) = none ↔
      betweenNextFixture (truncDay (mkDate 2025 9 26) + dayNs)
        (addDateGo (truncDay (mkDate 2025 9 26)) 1 0 0) = [])
    ∧ ∀ d, getNextOccurrence srcNextFixture modelTimeParse fmRecFixture (mkDate 2025 9 26) =
        some d →
        d ∈ betweenNextFixture (truncDay (mkDate 2025 9 26) + dayNs)
          (addDateGo (truncDay (mkDate 2025 9 26)) 1 0 0) ∧
        truncDay (mkDate 2025 9 26) < d ∧
        d ≤ addDateGo (truncDay (mkDate 2025 9 26)) 1 0 0 ∧
        ∀ x ∈ betweenNextFixture (truncDay (mkDate 2025 9 26) + dayNs)
          (addDateGo (truncDay (mkDate 2025 9 26)) 1 0 0), d ≤ x :=
  getNextOccurrence_earliest_in_horizon srcNextFixture modelTimeParse betweenNextFixture
    fmRecFixture (mkDate 2025 9 26) (by decide) rfl
    (by
      rw [show betweenNextFixture (truncDay (mkDate 2025 9 26) + dayNs)
        (addDateGo (truncDay (mkDate 2025 9 26)) 1 0 0) = [occNextFixture] from by decide]
      simp)
    (by decide) (by decide)

/-- C9: `ParseStartDate` returns the fallback on empty input, otherwise
tries the four formats in their fixed order, truncating the first
successful parse to midnight, and returns the fallback (never an error —
the function is total) when all four formats fail. -/
theorem ParseStartDate_priority (tp : TryParse) (s : String) (fb : Int) (hs : s ≠ "") :
    ParseStartDate tp "" fb = fb
    ∧ (∀ t, tp "2006-01-02" s = some t → ParseStartDate tp s fb = truncDay t)
    ∧ (∀ t, tp "2006-01-02" s = none → tp "2006-01-02T15:04:05Z" s = some t →
        ParseStartDate tp s fb = truncDay t)
    ∧ (∀ t, tp "2006-01-02" s = none → tp "2006-01-02T15:04:05Z" s = none →
        tp "2006-01-02T15:04:05" s = some t → ParseStartDate tp s fb = truncDay t)
    ∧ (∀ t, tp "2006-01-02" s = none → tp "2006-01-02T15:04:05Z" s = none →
        tp "2006-01-02T15:04:05" s = none → tp "20060102T000000Z" s = some t →
        ParseStartDate tp s fb = truncDay t)
    ∧ (tp "2006-01-02" s = none → tp "2006-01-02T15:04:05Z" s = none →
        tp "2006-01-02T15:04:05" s = none → tp "20060102T000000Z" s = none →
        ParseStartDate tp s fb = fb) := by
  refine ⟨by simp [ParseStartDate], ?_, ?_, ?_, ?_, ?_⟩
  · intro t h1
    simp [ParseStartDate, hs, goStartDateFormats, tryFormats, h1]
  · intro t h1 h2
    simp [ParseStartDate, hs, goStartDateFormats, tryFormats, h1, h2]
  · intro t h1 h2 h3
    simp [ParseStartDate, hs, goStartDateFormats, tryFormats, h1, h2, h3]
  · intro t h1 h2 h3 h4
    simp [ParseStartDate, hs, goStartDateFormats, tryFormats, h1, h2, h3, h4]
  · intro h1 h2 h3 h4
    simp [ParseStartDate, hs, goStartDateFormats, tryFormats, h1, h2, h3, h4]

/-- Witness for C9: a plain date wins with the first format; an unparseable
string falls back. -/
theorem ParseStartDate_priority_witness :
    ParseStartDate modelTimeParse "2024-01-20" 0 = truncDay (mkDate 2024 1 20)
    ∧ ParseStartDate modelTimeParse "bogus" 7 = 7 :=
  ⟨(ParseStartDate_priority modelTimeParse "2024-01-20" 0 (by decide)).2.1
      (mkDate 2024 1 20) (by decide),
   (ParseStartDate_priority modelTimeParse "bogus" 7 (by decide)).2.2.2.2.2
      (by decide) (by decide) (by decide) (by decide)⟩

/-- C10 fails: with an empty dtstart string and duration `P2Y` the legacy
string-based check returns false (it bails out on the empty string), while
the structured check on the `ApplyDefaults` result evaluates the fallback
window (one year before `t`, 730 days long), which contains `t`. -/
theorem legacy_oneTime_divergence_cex :
    ParseDuration "P2Y" = .ok 63072000000000000
    ∧ legacyIsOneTimeTaskActive modelTimeParse ⟨"", "P2Y", "", []⟩ (mkDate 2025 9 26) = .ok false
    ∧ (match ApplyDefaults modelTimeParse ⟨"", "P2Y", "", []⟩ (mkDate 2025 9 26) with
       | .ok fmd => IsOneTimeTaskActive fmd (mkDate 2025 9 26)
       | _ => false) = true := by
  refine ⟨by decide, by decide, by decide⟩

/-- C10 (amended): the legacy string-based one-time check and the
structured check on the `ApplyDefaults` result agree whenever the dtstart
string is non-empty and the resolved start date is not the Go zero time. -/
theorem legacy_oneTime_agrees (tp : TryParse) (fm : FrontMatter) (now dur : Int)
    (fmd : FrontMatterWithDefaults)
    (hdur : ParseDuration fm.duration = .ok dur)
    (hne : fm.dtstart ≠ "")
    (happ : ApplyDefaults tp fm now = .ok fmd)
    (hnz : fmd.dtstart ≠ 0) :
    legacyIsOneTimeTaskActive tp fm now = .ok (IsOneTimeTaskActive fmd now) := by
  unfold ApplyDefaults at happ
  rw [hdur] at happ
  simp only [GoResult.ok.injEq] at happ
  subst happ
  unfold legacyIsOneTimeTaskActive IsOneTimeTaskActive
  rw [if_neg hne, hdur, if_neg (by simpa using hnz)]
  rfl

/-- Witness for the amended C10: both implementations agree (inactive) for
a one-time definition starting October 18, 2025 seen on September 26,
2025. -/
theorem legacy_oneTime_agrees_witness :
    legacyIsOneTimeTaskActive modelTimeParse ⟨"", "P1D", "2025-10-18", []⟩ (mkDate 2025 9 26) =
      .ok (IsOneTimeTaskActive ⟨"", 86400000000000, mkDate 2025 10 18, []⟩ (mkDate 2025 9 26)) :=
  legacy_oneTime_agrees modelTimeParse ⟨"", "P1D", "2025-10-18", []⟩ (mkDate 2025 9 26)
    86400000000000 ⟨"", 86400000000000, mkDate 2025 10 18, []⟩
    (by decide) (by decide) (by decide) (by decide)

end ObsidianTasks
